import Mathlib

/-!
Verification of the Joblyst matching pipeline: a shallow embedding of
`main.py` (normalizer, filter chain, hybrid scorer, dispatch) and
`job_history.py` (the sent-jobs history store), with theorems settling the
spec's claims.

Modelling conventions:
* Python strings are Lean `String`s; Python's substring operator `in` is
  `strContains`, `str.count` is `countSubS` (non-overlapping, leftmost),
  `str.strip()` is `trimS`, `str.lower()` is `toLowerS`, slicing
  `s[:n]` is `takeS n`.
* ISO-8601 timestamp strings (compared lexicographically in the code, which
  for fixed-format ISO strings coincides with chronological order) are
  modelled as integers ordered chronologically.
* Python floats are modelled as exact rationals; `int(x)` is `pyInt`
  (truncation toward zero).
* The sentence-transformer embedding call is external to the core, so the
  raw cosine similarity is a parameter of the scorer.
-/

namespace Joblyst

/-- Python whitespace characters recognised by `str.strip()`. -/
def isPyWs (c : Char) : Bool :=
  c = ' ' || c = '\t' || c = '\n' || c = '\r' || c = '\x0b' || c = '\x0c'

/-- Model of Python `str.strip()`: drop whitespace from both ends. -/
def trimL (cs : List Char) : List Char :=
  ((cs.dropWhile isPyWs).reverse.dropWhile isPyWs).reverse

/-- Model of Python `s.strip()` on strings. -/
def trimS (s : String) : String := ⟨trimL s.data⟩

/-- Decides whether `need` occurs as a contiguous substring of `hay`
(Python's `need in hay`). -/
def hasSub (hay need : List Char) : Bool :=
  match hay with
  | [] => need.isEmpty
  | c :: t => need.isPrefixOf (c :: t) || hasSub t need

/-- Model of Python `need in hay` on strings. -/
def strContains (hay need : String) : Bool := hasSub hay.data need.data

/-- Model of Python `s.lower()` (character-wise). -/
def toLowerS (s : String) : String := ⟨s.data.map Char.toLower⟩

/-- Model of Python slicing `s[:n]` (by code points). -/
def takeS (n : Nat) (s : String) : String := ⟨s.data.take n⟩

/-- Helper for the HTML-tag regex `<[^>]+>`: given the characters after a
`<`, return the remainder after the closing `>` provided at least one
non-`>` character was consumed, else `none` (no match starts here). -/
def tagEnd : List Char → Nat → Option (List Char)
  | [], _ => none
  | c :: t, seen => if c = '>' then (if seen = 0 then none else some t) else tagEnd t (seen + 1)

/-- Fuel-driven worker for `stripTags`; fuel `hay.length` always suffices
because every step consumes at least one character. -/
def stripTagsAux : Nat → List Char → List Char
  | 0, _ => []
  | _ + 1, [] => []
  | fuel + 1, c :: rest =>
    if c = '<' then
      match tagEnd rest 0 with
      | some t => ' ' :: stripTagsAux fuel t
      | none => c :: stripTagsAux fuel rest
    else c :: stripTagsAux fuel rest

/-- Model of `re.sub(r'<[^>]+>', ' ', text)`: each HTML tag is replaced by
a single space; everything else is copied. -/
def stripTags (cs : List Char) : List Char := stripTagsAux cs.length cs

/-- Model of `cleanHtml` in `main.py`: empty/falsy input maps to `""`,
otherwise tags are replaced by spaces and the ends are stripped. -/
def cleanHtml (s : String) : String :=
  if s = "" then "" else trimS ⟨stripTags s.data⟩

/-- Fuel-driven worker for `countSub` (Python `str.count`: leftmost,
non-overlapping). -/
def countSubAux : Nat → List Char → List Char → Nat
  | 0, _, _ => 0
  | _ + 1, [], _ => 0
  | fuel + 1, c :: t, need =>
    if need.isPrefixOf (c :: t) then 1 + countSubAux fuel (t.drop (need.length - 1)) need
    else countSubAux fuel t need

/-- Number of non-overlapping occurrences of `need` in `hay` (for
non-empty `need`), as Python's `hay.count(need)`. -/
def countSub (hay need : List Char) : Nat := countSubAux hay.length hay need

/-- Model of Python `hay.count(need)` on strings. -/
def countSubS (hay need : String) : Nat := countSub hay.data need.data

/-- A normalized job record, as produced by `normalizeJob` in `main.py`.
The `id` field is the dedup fingerprint. -/
structure Job where
  title : String
  company : String
  location : String
  description : String
  applyLink : String
  email : Option String
  id : String
deriving DecidableEq

/-- Model of `normalizeJob` in `main.py`. Note that the emptiness check on
`title`/`company` happens on the RAW values (Python falsiness), before any
cleaning, and that the stored `company` keeps the cleaned original case
while only the fingerprint lower-cases it. -/
def normalizeJob (title company location description applyLink : String)
    (email : Option String) : Option Job :=
  if title = "" || company = "" then none
  else
    let t := trimS (cleanHtml title)
    let c := trimS (cleanHtml company)
    let l := if location = "" then "pakistan" else trimS (cleanHtml location)
    let d := trimS (cleanHtml description)
    some { title := toLowerS t
           company := c
           location := toLowerS l
           description := toLowerS d
           applyLink := applyLink
           email := email
           id := takeS 30 (toLowerS c) ++ "-" ++ takeS 40 (toLowerS t) }

/-! ## History store (`job_history.py`)

The Python store is a dict from fingerprint to ISO timestamp; dict keys are
unique and assignment keeps the position of an existing key, so we model it
as an association list where `mark_as_sent` updates in place or appends. -/

/-- The in-memory history: fingerprint ↦ last-sent time. -/
abbrev Hist := List (String × Int)

/-- Model of `JobHistory.is_sent`: membership of the fingerprint. -/
def is_sent (h : Hist) (id : String) : Bool := h.any (fun p => p.1 == id)

/-- Model of `JobHistory.mark_as_sent` (dict assignment followed by a
synchronous save): overwrite the timestamp if present, else append. -/
def mark_as_sent (h : Hist) (id : String) (now : Int) : Hist :=
  if is_sent h id then h.map (fun p => if p.1 == id then (id, now) else p)
  else h ++ [(id, now)]

/-- Model of `JobHistory.cleanup_old_entries`: keep exactly the entries
whose timestamp is strictly greater than `now - retention`, and return the
new store together with the number of entries removed. -/
def cleanup_old_entries (h : Hist) (now retention : Int) : Hist × Nat :=
  let kept := h.filter (fun p => decide (now - retention < p.2))
  (kept, h.length - kept.length)

/-! ## Filter chain (`main.py`) -/

/-- The fixed fallback technology-stack vocabulary of `roleFilter`. -/
def myTechStack : List String :=
  ["python", "javascript", "typescript", "react", "next", "nextjs",
   "node", "nodejs", "nest", "nestjs",
   "full stack", "fullstack", "full-stack",
   "frontend", "backend", "web developer",
   "ai", "ml", "machine learning", "artificial intelligence",
   "mern", "mean", "mongodb", "database",
   "fastapi", "software engineer"]

/-- Model of `roleFilter`: the combined title+description must contain an
allowed-role keyword or a fallback tech-stack keyword. -/
def roleFilter (allowedRoles : List String) (job : Job) : Bool :=
  let combined := job.title ++ " " ++ job.description
  allowedRoles.any (fun r => strContains combined r)
    || myTechStack.any (fun k => strContains combined k)

/-- Model of `locationFilter`: the location must contain an allowed
location keyword or the literal token "remote". -/
def locationFilter (allowedLocations : List String) (job : Job) : Bool :=
  allowedLocations.any (fun l => strContains job.location l)
    || strContains job.location "remote"

/-- The absolute experience-exclusion markers of `experienceFilter`. -/
def rejectPatterns : List String :=
  ["senior", "sr.", "sr ", "lead", "principal", "staff engineer", "director",
   "5+ year", "6+ year", "7+ year", "8+ year", "10+ year",
   "5 year", "6 year", "7 year", "8 year",
   "mid-level", "mid level", "intermediate", "experienced",
   "3+ year", "4+ year", "3 year", "4 year"]

/-- The fresh-graduate/entry-level markers of `experienceFilter`. -/
def freshPatterns : List String :=
  ["fresh", "junior", "entry", "graduate", "intern", "trainee",
   "0-1", "0-2", "1-2", "associate", "entry level", "entry-level"]

/-- The generic role nouns of `experienceFilter`'s fallback tier. -/
def entryLevelTitles : List String := ["developer", "engineer", "programmer"]

/-- Model of `experienceFilter`: absolute rejection markers are checked
first; then fresh-graduate markers accept; finally the cautious fallback on
the title. -/
def experienceFilter (job : Job) : Bool :=
  let combined := job.title ++ " " ++ job.description
  if rejectPatterns.any (fun p => strContains combined p) then false
  else if freshPatterns.any (fun p => strContains combined p) then true
  else if entryLevelTitles.any (fun t => strContains job.title t)
          && !(strContains job.title "senior") && !(strContains job.title "lead") then true
  else false

/-- The excluded-technology list of `skillsExclusionFilter`. -/
def excludedTech : List String :=
  ["flutter", "swift", "kotlin", "ios", "android",
   "angular", "vue", "vue.js",
   ".net", "c#", "csharp", "asp.net",
   "laravel", "php", "symfony",
   "ruby", "rails", "ruby on rails",
   "golang", "go developer",
   "salesforce", "sap", "oracle",
   "shopify", "wordpress", "drupal",
   "unity", "unreal", "game dev",
   "devops", "sre", "infrastructure", "network engineer",
   "qa", "test", "quality assurance", "sdet"]

/-- Model of `skillsExclusionFilter`: reject when an excluded technology
appears in the title, or occurs at least twice across title+description. -/
def skillsExclusionFilter (job : Job) : Bool :=
  let title := toLowerS job.title
  let combined := title ++ " " ++ toLowerS job.description
  if excludedTech.any (fun t => strContains title t) then false
  else if excludedTech.any (fun t => decide (2 ≤ countSubS combined t)) then false
  else true

/-! ## Hybrid scorer (`main.py`) -/

/-- The curated synonym families of `computeKeywordScore`, in source
order (Python dict iteration order is insertion order). -/
def synonyms : List (String × List String) :=
  [("next.js", ["nextjs", "next js", "react framework"]),
   ("nest.js", ["nestjs", "nest js"]),
   ("react", ["reactjs", "react.js"]),
   ("node", ["nodejs", "node.js"]),
   ("mongodb", ["mongo", "nosql", "database"]),
   ("typescript", ["ts", "javascript"]),
   ("python", ["py"]),
   ("fastapi", ["fast api", "python backend"]),
   ("ai", ["artificial intelligence", "machine learning", "ml"]),
   ("full stack", ["fullstack", "full-stack", "frontend", "backend"])]

/-- The synonym scan for one skill: the first family related to the skill
by bidirectional substring containment and with some synonym present in
the job text yields 0.8 (the `break` in the source), otherwise 0. -/
def synLoop (sl text : String) : List (String × List String) → ℚ
  | [] => 0
  | (key, syns) :: rest =>
    if (strContains sl key || strContains key sl)
        && syns.any (fun syn => strContains text syn) then 8/10
    else synLoop sl text rest

/-- Credit awarded to one skill by `computeKeywordScore`: 1 for a verbatim
occurrence in the job text, else the synonym-family scan. -/
def skillCredit (text skill : String) : ℚ :=
  if strContains text (toLowerS skill) then 1 else synLoop (toLowerS skill) text synonyms

/-- Model of `computeKeywordScore`: average the per-skill credits over the
number of skills; 0 for an empty skill list. -/
def computeKeywordScore (job : Job) (cvSkills : List String) : ℚ :=
  let text := toLowerS (job.title ++ " " ++ job.description)
  let matched := (cvSkills.map (fun skill => skillCredit text skill)).sum
  if 0 < cvSkills.length then matched / cvSkills.length else 0

/-- The fresh-graduate keywords of the scorer's boost. -/
def freshKeywords : List String :=
  ["fresh", "junior", "entry", "graduate", "intern", "trainee", "associate"]

/-- Model of the scorer's fresh-graduate boost: +0.15 when a fresh keyword
appears in the title or the description. -/
def freshGradBoost (job : Job) : ℚ :=
  if freshKeywords.any (fun kw =>
      strContains (toLowerS job.title) kw || strContains (toLowerS job.description) kw)
  then 15/100 else 0

/-- High-priority role keywords (+0.20 boost). -/
def highPriorityRoles : List String :=
  ["mern", "mean", "full stack", "fullstack", "full-stack",
   "web developer", "react", "next.js", "nextjs", "node.js", "nodejs",
   "javascript developer", "typescript developer", "frontend", "backend"]

/-- Medium-priority role keywords (+0.10 boost). -/
def mediumPriorityRoles : List String :=
  ["software engineer", "software developer", "programmer"]

/-- Low-priority AI/ML role keywords (+0.05 boost). -/
def lowPriorityRoles : List String :=
  ["ai engineer", "ml engineer", "data science", "machine learning"]

/-- Model of the scorer's role-priority boost over the combined lowered
title+description text, first match wins. -/
def roleBoost (job : Job) : ℚ :=
  if highPriorityRoles.any
      (fun r => strContains (toLowerS job.title ++ " " ++ toLowerS job.description) r) then 20/100
  else if mediumPriorityRoles.any
      (fun r => strContains (toLowerS job.title ++ " " ++ toLowerS job.description) r) then 10/100
  else if lowPriorityRoles.any
      (fun r => strContains (toLowerS job.title ++ " " ++ toLowerS job.description) r) then 5/100
  else 0

/-- Python `int()` on a float: truncation toward zero. -/
def pyInt (q : ℚ) : ℤ := if 0 ≤ q then ⌊q⌋ else ⌈q⌉

/-- Model of `scoreJobHybrid`. The embedding computation is external, so
the raw cosine similarity `cosineRaw` is a parameter; the code clamps it
at 0, averages the components 70/30, adds the boosts, truncates with
`int(... * 100)` and caps at 100. -/
def scoreJobHybrid (job : Job) (cvSkills : List String) (cosineRaw : ℚ) : ℤ :=
  let cosineScore := max 0 cosineRaw
  let keywordScore := computeKeywordScore job cvSkills
  let baseScore := cosineScore * (70/100) + keywordScore * (30/100)
  let totalScore := pyInt ((baseScore + freshGradBoost job + roleBoost job) * 100)
  min 100 totalScore

/-- Modelled from the spec's words, for comparison with `scoreJobHybrid`:
the claimed combination uses `round` on `(base + boosts) * 100` instead of
the code's truncation. -/
def scoreJobHybridSpec (job : Job) (cvSkills : List String) (cosineRaw : ℚ) : ℤ :=
  let cosineScore := max 0 cosineRaw
  let keywordScore := computeKeywordScore job cvSkills
  let baseScore := cosineScore * (70/100) + keywordScore * (30/100)
  min 100 (round ((baseScore + freshGradBoost job + roleBoost job) * 100))

/-- Modelled from the spec's words, for comparison with
`cleanup_old_entries`: the claimed cleanup keeps exactly the entries that
are NOT strictly older than the cutoff (removes only `p.2 < now - retention`). -/
def cleanupKeptSpec (h : Hist) (now retention : Int) : Hist :=
  h.filter (fun p => decide (now - retention ≤ p.2))

/-! ## Dispatch and orchestrator (`main.py`) -/

/-- Observable events of a per-job orchestrator step, in order. -/
inductive Ev
  | scorerCalled (id : String)
  | marked (id : String)
  | postAttempt (id : String) (ok : Bool)
deriving DecidableEq

/-- Model of `sendToDiscord`: an already-sent fingerprint returns at once
with no effect; otherwise `mark_as_sent` (which persists synchronously)
runs strictly before the webhook post is attempted, and a transport
failure is swallowed by the `try/except`, leaving the marked store in
place. -/
def sendToDiscordM (h : Hist) (id : String) (now : Int) (transportFails : Bool) :
    Hist × List Ev :=
  if is_sent h id then (h, [])
  else (mark_as_sent h id now, [Ev.marked id, Ev.postAttempt id (!transportFails)])

/-- Configuration consumed by the per-job pipeline step. -/
structure RunConfig where
  allowedRoles : List String
  allowedLocations : List String
  minScore : ℤ

/-- Model of the per-job body of the `runJoblyst` loop: skip if already
sent, run the filter chain in order, score the survivors, and dispatch
when the score reaches the threshold. `semantic` is the external embedding
oracle giving each job its raw cosine similarity. -/
def processJob (cfg : RunConfig) (cvSkills : List String) (semantic : Job → ℚ)
    (now : Int) (transportFails : Bool) (h : Hist) (job : Job) : Hist × List Ev :=
  if is_sent h job.id then (h, [])
  else if !(roleFilter cfg.allowedRoles job) then (h, [])
  else if !(locationFilter cfg.allowedLocations job) then (h, [])
  else if !(experienceFilter job) then (h, [])
  else if !(skillsExclusionFilter job) then (h, [])
  else
    let score := scoreJobHybrid job cvSkills (semantic job)
    if cfg.minScore ≤ score then
      let r := sendToDiscordM h job.id now transportFails
      (r.1, Ev.scorerCalled job.id :: r.2)
    else (h, [Ev.scorerCalled job.id])

/-! ## Helper lemmas -/

/-- After `mark_as_sent h id t`, the pair `(id, t)` is in the store. -/
theorem mem_mark_as_sent (h : Hist) (id : String) (t : Int) :
    (id, t) ∈ mark_as_sent h id t := by
  unfold mark_as_sent
  split
  · rename_i hs
    unfold is_sent at hs
    rw [List.any_eq_true] at hs
    obtain ⟨p, hp, hpe⟩ := hs
    rw [List.mem_map]
    exact ⟨p, hp, by simp [hpe]⟩
  · exact List.mem_append_right _ (List.mem_singleton.mpr rfl)

/-- Membership of a pair keyed by `id` makes `is_sent` true. -/
theorem is_sent_of_mem {h : Hist} {id : String} {t : Int} (hm : (id, t) ∈ h) :
    is_sent h id = true := by
  unfold is_sent
  rw [List.any_eq_true]
  exact ⟨(id, t), hm, by simp⟩

/-- A filter and its complement partition the length of a list. -/
theorem length_filter_add_compl {α : Type} (p : α → Bool) (l : List α) :
    (l.filter p).length + (l.filter (fun a => !(p a))).length = l.length := by
  induction l with
  | nil => rfl
  | cons a t ih =>
    by_cases hpa : p a = true <;> simp [List.filter_cons, hpa, ← ih] <;> omega

/-- The synonym scan yields either no credit or the 0.8 partial credit. -/
theorem synLoop_eq_zero_or (sl text : String) (fams : List (String × List String)) :
    synLoop sl text fams = 0 ∨ synLoop sl text fams = 8/10 := by
  induction fams with
  | nil => exact Or.inl rfl
  | cons f rest ih =>
    obtain ⟨key, syns⟩ := f
    unfold synLoop
    split
    · exact Or.inr rfl
    · exact ih

/-- Per-skill credit is non-negative. -/
theorem skillCredit_nonneg (text skill : String) : 0 ≤ skillCredit text skill := by
  unfold skillCredit
  split
  · norm_num
  · rcases synLoop_eq_zero_or (toLowerS skill) text synonyms with hz | hz
    · rw [hz]
    · rw [hz]
      norm_num

/-- Per-skill credit never exceeds one: a verbatim match earns 1, a
synonym-family match earns at most 0.8. -/
theorem skillCredit_le_one (text skill : String) : skillCredit text skill ≤ 1 := by
  unfold skillCredit
  split
  · norm_num
  · rcases synLoop_eq_zero_or (toLowerS skill) text synonyms with hz | hz <;> (rw [hz]; norm_num)

/-- Sum of per-element values bounded by 1 is at most the length. -/
theorem sum_map_le_length (l : List String) (f : String → ℚ) (hb : ∀ s, f s ≤ 1) :
    (l.map f).sum ≤ l.length := by
  induction l with
  | nil => simp
  | cons a t ih =>
    simp only [List.map_cons, List.sum_cons, List.length_cons]
    push_cast
    have := hb a
    linarith

/-- Sum of non-negative per-element values is non-negative. -/
theorem sum_map_nonneg (l : List String) (f : String → ℚ) (hb : ∀ s, 0 ≤ f s) :
    0 ≤ (l.map f).sum := by
  induction l with
  | nil => simp
  | cons a t ih =>
    simp only [List.map_cons, List.sum_cons]
    have := hb a
    linarith

/-- The keyword-overlap score is non-negative. -/
theorem computeKeywordScore_nonneg (job : Job) (cvSkills : List String) :
    0 ≤ computeKeywordScore job cvSkills := by
  unfold computeKeywordScore
  split
  · rename_i hl
    apply div_nonneg
    · exact sum_map_nonneg _ _ (fun s => skillCredit_nonneg _ s)
    · positivity
  · simp

/-- The keyword-overlap score never exceeds one. -/
theorem computeKeywordScore_le_one (job : Job) (cvSkills : List String) :
    computeKeywordScore job cvSkills ≤ 1 := by
  unfold computeKeywordScore
  split
  · rename_i hl
    rw [div_le_one (by exact_mod_cast hl)]
    exact sum_map_le_length _ _ (fun s => skillCredit_le_one _ s)
  · norm_num

/-- The fresh-graduate boost is 0 or 0.15. -/
theorem freshGradBoost_cases (job : Job) :
    freshGradBoost job = 0 ∨ freshGradBoost job = 15/100 := by
  unfold freshGradBoost
  split
  · exact Or.inr rfl
  · exact Or.inl rfl

/-- The role boost is 0, 0.05, 0.10 or 0.20. -/
theorem roleBoost_cases (job : Job) :
    roleBoost job = 0 ∨ roleBoost job = 5/100 ∨ roleBoost job = 10/100 ∨
      roleBoost job = 20/100 := by
  unfold roleBoost
  split
  · exact Or.inr (Or.inr (Or.inr rfl))
  · split
    · exact Or.inr (Or.inr (Or.inl rfl))
    · split
      · exact Or.inr (Or.inl rfl)
      · exact Or.inl rfl

/-- Python truncation is the identity on integer values. -/
theorem pyInt_intCast (z : Int) : pyInt ((z : ℚ)) = z := by
  unfold pyInt
  split
  · exact Int.floor_intCast z
  · exact Int.ceil_intCast z

/-- The capped truncation of an integer value at most 100 is that value. -/
theorem min_pyInt_cast (q : ℚ) (z : Int) (hq : q = (z : ℚ)) (hz : z ≤ 100) :
    ((min 100 (pyInt q) : Int) : ℚ) = q := by
  subst hq
  rw [pyInt_intCast, min_eq_right hz]

/-! ## Claims -/

/-- C2: experience-filter absolute disqualifiers — whenever the combined
title+description text contains any of the fixed exclusion markers (such
as "senior", "lead" or "5+ year"), `experienceFilter` rejects the job; the
markers are checked before the fresh-graduate patterns, so no
fresh-graduate keyword in the same text can override them. -/
theorem c2_experience_absolute_disqualifiers (job : Job) (p : String)
    (hp : p ∈ rejectPatterns)
    (hc : strContains (job.title ++ " " ++ job.description) p = true) :
    experienceFilter job = false := by
  have hany : (rejectPatterns.any
      (fun q => strContains (job.title ++ " " ++ job.description) q)) = true :=
    List.any_eq_true.mpr ⟨p, hp, hc⟩
  simp [experienceFilter, hany]

/-- C2 witness: a job whose text contains both the exclusion marker
"senior" and the fresh-graduate markers "fresh" and "entry" is rejected. -/
theorem c2_witness :
    experienceFilter
      { title := "senior fresh developer", company := "acme", location := "lahore",
        description := "entry level role", applyLink := "x", email := none,
        id := "acme-senior fresh developer" } = false :=
  c2_experience_absolute_disqualifiers
    { title := "senior fresh developer", company := "acme", location := "lahore",
      description := "entry level role", applyLink := "x", email := none,
      id := "acme-senior fresh developer" }
    "senior" (by decide) (by decide)

/-- C5 counterexample: the claim says `normalizeJob` returns null when the
title is whitespace-only after trimming, but the code checks Python
falsiness of the RAW strings before any trimming, so a title of a single
space (which trims to empty) still yields a Job record. -/
theorem c5_counterexample :
    trimS (cleanHtml " ") = "" ∧ normalizeJob " " "acme" "x" "d" "L" none ≠ none := by
  exact ⟨by decide, by decide⟩

/-- C5 amended: `normalizeJob` returns `none` exactly when the raw title
or the raw company is the empty string (Python falsiness, checked before
cleaning); every input with non-empty raw title and company — including
whitespace-only ones — returns a Job record. -/
theorem c5_normalizer_rejection (title company location description applyLink : String)
    (email : Option String) :
    normalizeJob title company location description applyLink email = none ↔
      title = "" ∨ company = "" := by
  by_cases h1 : title = "" <;> by_cases h2 : company = "" <;>
    simp [normalizeJob, h1, h2]

/-- C5 witness: an empty title makes the normalizer reject. -/
theorem c5_witness : normalizeJob "" "acme" "x" "d" "L" none = none :=
  (c5_normalizer_rejection "" "acme" "x" "d" "L" none).mpr (Or.inl rfl)

/-- C6: fingerprint identity — every job produced by `normalizeJob`
carries the fingerprint `lowercase(company)[:30] ++ "-" ++
lowercase(title)[:40]` (the stored title is already lower-cased), and any
two normalized postings agreeing on those company/title prefixes share the
fingerprint even when descriptions, links or emails differ. -/
theorem c6_fingerprint_identity :
    (∀ title company location description applyLink email j,
      normalizeJob title company location description applyLink email = some j →
      j.id = takeS 30 (toLowerS j.company) ++ "-" ++ takeS 40 j.title)
    ∧ (∀ t1 c1 l1 d1 a1 e1 t2 c2 l2 d2 a2 e2 j1 j2,
      normalizeJob t1 c1 l1 d1 a1 e1 = some j1 →
      normalizeJob t2 c2 l2 d2 a2 e2 = some j2 →
      takeS 30 (toLowerS j1.company) = takeS 30 (toLowerS j2.company) →
      takeS 40 j1.title = takeS 40 j2.title →
      j1.id = j2.id) := by
  have main : ∀ title company location description applyLink email j,
      normalizeJob title company location description applyLink email = some j →
      j.id = takeS 30 (toLowerS j.company) ++ "-" ++ takeS 40 j.title := by
    intro title company location description applyLink email j hj
    rw [normalizeJob] at hj
    split at hj
    · simp at hj
    · simp only [Option.some.injEq] at hj
      subst hj
      rfl
  refine ⟨main, ?_⟩
  intro t1 c1 l1 d1 a1 e1 t2 c2 l2 d2 a2 e2 j1 j2 h1 h2 hcpre htpre
  rw [main t1 c1 l1 d1 a1 e1 j1 h1, main t2 c2 l2 d2 a2 e2 j2 h2, hcpre, htpre]

/-- C6 witness: two postings with the same title and company but different
descriptions and links obtain the same fingerprint. -/
theorem c6_witness :
    ({ title := "dev", company := "acme", location := "x", description := "d one",
       applyLink := "L1", email := none, id := "acme-dev" } : Job).id =
    ({ title := "dev", company := "acme", location := "x", description := "d two",
       applyLink := "L2", email := none, id := "acme-dev" } : Job).id :=
  c6_fingerprint_identity.2 "dev" "acme" "x" "d one" "L1" none
    "dev" "acme" "x" "d two" "L2" none _ _
    (by decide) (by decide) (by decide) (by decide)

/-- C8 counterexample: the claim says normalization collapses internal
whitespace runs and lower-cases the company; on title "A  B" and company
"ACME" the produced job keeps the doubled internal space (title "a  b")
and the company's original case ("ACME", not "acme"). -/
theorem c8_counterexample :
    (normalizeJob "A  B" "ACME" "x" "d" "L" none).map Job.title = some "a  b" ∧
    (normalizeJob "A  B" "ACME" "x" "d" "L" none).map Job.company = some "ACME" ∧
    (normalizeJob "A  B" "ACME" "x" "d" "L" none).map Job.company ≠ some "acme" ∧
    strContains "a  b" "  " = true := by
  exact ⟨by decide, by decide, by decide, by decide⟩

/-- C8 amended: for every accepted input, each text field has HTML tags
replaced by single spaces and leading/trailing whitespace trimmed
(internal whitespace runs are NOT collapsed); title, location and
description are lower-cased while the company keeps its cleaned original
case (only the fingerprint lower-cases it); applyLink and email pass
through unmodified. -/
theorem c8_normalization_fields
    (title company location description applyLink : String)
    (email : Option String) (j : Job)
    (hj : normalizeJob title company location description applyLink email = some j) :
    j.title = toLowerS (trimS (cleanHtml title)) ∧
    j.company = trimS (cleanHtml company) ∧
    j.location = toLowerS (if location = "" then "pakistan"
                  else trimS (cleanHtml location)) ∧
    j.description = toLowerS (trimS (cleanHtml description)) ∧
    j.applyLink = applyLink ∧ j.email = email := by
  rw [normalizeJob] at hj
  split at hj
  · simp at hj
  · simp only [Option.some.injEq] at hj
    subst hj
    exact ⟨rfl, rfl, rfl, rfl, rfl, rfl⟩

/-- C8 witness: the amended field description instantiated on a concrete
raw posting with an HTML-tagged title. -/
theorem c8_witness :
    ({ title := "hi  there", company := "Acme", location := "remote",
       description := "d", applyLink := "L", email := none,
       id := "acme-hi  there" } : Job).title =
      toLowerS (trimS (cleanHtml "<b>Hi</b> there ")) ∧
    ({ title := "hi  there", company := "Acme", location := "remote",
       description := "d", applyLink := "L", email := none,
       id := "acme-hi  there" } : Job).applyLink = "L" := by
  have h := c8_normalization_fields "<b>Hi</b> there " "Acme" "remote" "d" "L" none
    { title := "hi  there", company := "Acme", location := "remote",
      description := "d", applyLink := "L", email := none,
      id := "acme-hi  there" } (by decide)
  exact ⟨h.1, h.2.2.2.2.1⟩

/-- C3 counterexample: an entry timestamped exactly at the cutoff
`now - retentionDays` is not strictly older than the cutoff, yet
`cleanup_old_entries` removes it (the code keeps only strictly newer
entries, `timestamp > cutoff`), so the removed set is not "exactly the
strictly older entries" as claimed. -/
theorem c3_counterexample :
    cleanup_old_entries [("a", 0)] 7 7 = ([], 1) ∧
    cleanupKeptSpec [("a", 0)] 7 7 = [("a", 0)] ∧
    ¬ ((0 : Int) < 7 - 7) := by
  exact ⟨by decide, by decide, by decide⟩

/-- C3 amended: `cleanup_old_entries` keeps exactly the entries whose
timestamp is strictly newer than `now - retentionDays` (so an entry
timestamped exactly at the cutoff is removed together with all strictly
older ones, and nothing strictly newer is removed), returns the number of
entries removed, is a no-op returning 0 on the empty store, and a second
call immediately after removes 0 entries. -/
theorem c3_cleanup_exact (h : Hist) (now retention : Int) :
    (∀ p : String × Int, p ∈ (cleanup_old_entries h now retention).1 ↔
      p ∈ h ∧ now - retention < p.2) ∧
    (cleanup_old_entries h now retention).2 =
      (h.filter (fun p => !(decide (now - retention < p.2)))).length ∧
    cleanup_old_entries ([] : Hist) now retention = ([], 0) ∧
    cleanup_old_entries (cleanup_old_entries h now retention).1 now retention =
      ((cleanup_old_entries h now retention).1, 0) := by
  refine ⟨?_, ?_, rfl, ?_⟩
  · intro p
    simp [cleanup_old_entries, List.mem_filter]
  · have hlen := length_filter_add_compl (fun p => decide (now - retention < p.2)) h
    have hle : (h.filter (fun p => decide (now - retention < p.2))).length ≤ h.length :=
      List.length_filter_le _ _
    show h.length - (h.filter (fun p => decide (now - retention < p.2))).length = _
    omega
  · have hss : ((h.filter (fun p => decide (now - retention < p.2))).filter
        (fun p => decide (now - retention < p.2))) =
        h.filter (fun p => decide (now - retention < p.2)) :=
      List.filter_eq_self.mpr (fun a ha => (List.mem_filter.mp ha).2)
    show ((h.filter (fun p => decide (now - retention < p.2))).filter
        (fun p => decide (now - retention < p.2)),
        (h.filter (fun p => decide (now - retention < p.2))).length -
          ((h.filter (fun p => decide (now - retention < p.2))).filter
            (fun p => decide (now - retention < p.2))).length) = _
    rw [hss, Nat.sub_self]
    rfl

/-- C3 witness: the amended cleanup behaviour on a concrete two-entry
store with cutoff 0 — the newer entry is kept, one entry is removed, and
the immediate second call removes nothing. -/
theorem c3_witness :
    (("a", (10 : Int)) ∈ (cleanup_old_entries [("a", 10), ("b", -5)] 7 7).1 ↔
      ("a", (10 : Int)) ∈ ([("a", 10), ("b", -5)] : Hist) ∧ (7 : Int) - 7 < 10) ∧
    cleanup_old_entries
        (cleanup_old_entries [("a", 10), ("b", -5)] 7 7).1 7 7 =
      ((cleanup_old_entries [("a", 10), ("b", -5)] 7 7).1, 0) :=
  ⟨(c3_cleanup_exact [("a", 10), ("b", -5)] 7 7).1 ("a", 10),
   (c3_cleanup_exact [("a", 10), ("b", -5)] 7 7).2.2.2⟩

/-- C9: the keyword-overlap score always lies in [0, 1] — each skill token
earns at most one unit of credit (1 verbatim, else at most the single 0.8
synonym-family credit thanks to the loop break), the sum is divided by the
number of skills, and an empty skill list scores 0. -/
theorem c9_keyword_score_unit_interval (job : Job) (cvSkills : List String) :
    0 ≤ computeKeywordScore job cvSkills ∧
    computeKeywordScore job cvSkills ≤ 1 ∧
    (cvSkills = [] → computeKeywordScore job cvSkills = 0) ∧
    (∀ text skill, 0 ≤ skillCredit text skill ∧ skillCredit text skill ≤ 1) := by
  refine ⟨computeKeywordScore_nonneg job cvSkills,
    computeKeywordScore_le_one job cvSkills, ?_,
    fun text skill => ⟨skillCredit_nonneg text skill, skillCredit_le_one text skill⟩⟩
  intro he
  subst he
  rfl

/-- C9 witness: the unit-interval bounds instantiated on a concrete job
and the empty profile. -/
theorem c9_witness :
    0 ≤ computeKeywordScore
        { title := "dev", company := "acme", location := "x", description := "d",
          applyLink := "L", email := none, id := "acme-dev" } [] ∧
    computeKeywordScore
        { title := "dev", company := "acme", location := "x", description := "d",
          applyLink := "L", email := none, id := "acme-dev" } [] = 0 :=
  ⟨(c9_keyword_score_unit_interval
      { title := "dev", company := "acme", location := "x", description := "d",
        applyLink := "L", email := none, id := "acme-dev" } []).1,
   (c9_keyword_score_unit_interval
      { title := "dev", company := "acme", location := "x", description := "d",
        applyLink := "L", email := none, id := "acme-dev" } []).2.2.1 rfl⟩

/-- C7: the hybrid score is an integer within [0, 100], and with zero
keyword overlap and non-positive (clamped-to-zero) raw similarity the
score is exactly the sum of the applicable boosts times 100. -/
theorem c7_score_bounds_and_boundary (job : Job) (cvSkills : List String)
    (cosineRaw : ℚ) :
    0 ≤ scoreJobHybrid job cvSkills cosineRaw ∧
    scoreJobHybrid job cvSkills cosineRaw ≤ 100 ∧
    (computeKeywordScore job cvSkills = 0 → cosineRaw ≤ 0 →
      ((scoreJobHybrid job cvSkills cosineRaw : Int) : ℚ) =
        (freshGradBoost job + roleBoost job) * 100) := by
  have hfb : 0 ≤ freshGradBoost job := by
    rcases freshGradBoost_cases job with hf | hf
    · rw [hf]
    · rw [hf]
      norm_num
  have hrb : 0 ≤ roleBoost job := by
    rcases roleBoost_cases job with hr | hr | hr | hr <;> rw [hr] <;> norm_num
  have hkw := computeKeywordScore_nonneg job cvSkills
  have hc0 : (0 : ℚ) ≤ max 0 cosineRaw := le_max_left 0 cosineRaw
  have hv : 0 ≤ (max 0 cosineRaw * (70/100) +
      computeKeywordScore job cvSkills * (30/100) +
      freshGradBoost job + roleBoost job) * 100 := by
    have h1 : (0 : ℚ) ≤ max 0 cosineRaw * (70/100) := by
      apply mul_nonneg hc0
      norm_num
    have h2 : (0 : ℚ) ≤ computeKeywordScore job cvSkills * (30/100) := by
      apply mul_nonneg hkw
      norm_num
    have h3 := add_nonneg (add_nonneg (add_nonneg h1 h2) hfb) hrb
    apply mul_nonneg h3
    norm_num
  refine ⟨?_, min_le_left _ _, ?_⟩
  · simp only [scoreJobHybrid]
    refine le_min (by norm_num) ?_
    unfold pyInt
    rw [if_pos hv]
    exact Int.floor_nonneg.mpr hv
  · intro hkw0 hc
    simp only [scoreJobHybrid]
    rw [hkw0, max_eq_left hc]
    have hring : ((0 : ℚ) * (70/100) + 0 * (30/100) +
        freshGradBoost job + roleBoost job) * 100 =
        (freshGradBoost job + roleBoost job) * 100 := by ring
    rw [hring]
    rcases freshGradBoost_cases job with hf | hf <;>
      rcases roleBoost_cases job with hr | hr | hr | hr <;> rw [hf, hr]
    · exact min_pyInt_cast _ 0 (by norm_num) (by norm_num)
    · exact min_pyInt_cast _ 5 (by norm_num) (by norm_num)
    · exact min_pyInt_cast _ 10 (by norm_num) (by norm_num)
    · exact min_pyInt_cast _ 20 (by norm_num) (by norm_num)
    · exact min_pyInt_cast _ 15 (by norm_num) (by norm_num)
    · exact min_pyInt_cast _ 20 (by norm_num) (by norm_num)
    · exact min_pyInt_cast _ 25 (by norm_num) (by norm_num)
    · exact min_pyInt_cast _ 35 (by norm_num) (by norm_num)

/-- C7 witness: a "junior react developer" posting with an empty profile
and raw similarity -1 earns exactly the fresh-graduate plus high-priority
boosts, and the bounds hold there. -/
theorem c7_witness :
    0 ≤ scoreJobHybrid
        { title := "junior react developer", company := "acme", location := "lahore",
          description := "", applyLink := "x", email := none,
          id := "acme-junior react developer" } [] (-1) ∧
    scoreJobHybrid
        { title := "junior react developer", company := "acme", location := "lahore",
          description := "", applyLink := "x", email := none,
          id := "acme-junior react developer" } [] (-1) ≤ 100 ∧
    ((scoreJobHybrid
        { title := "junior react developer", company := "acme", location := "lahore",
          description := "", applyLink := "x", email := none,
          id := "acme-junior react developer" } [] (-1) : Int) : ℚ) =
      (freshGradBoost
        { title := "junior react developer", company := "acme", location := "lahore",
          description := "", applyLink := "x", email := none,
          id := "acme-junior react developer" } +
       roleBoost
        { title := "junior react developer", company := "acme", location := "lahore",
          description := "", applyLink := "x", email := none,
          id := "acme-junior react developer" }) * 100 := by
  have h := c7_score_bounds_and_boundary
    { title := "junior react developer", company := "acme", location := "lahore",
      description := "", applyLink := "x", email := none,
      id := "acme-junior react developer" } [] (-1)
  exact ⟨h.1, h.2.1, h.2.2 rfl (by norm_num)⟩

/-- A fixture for the C4 counterexample: a posting matching exactly one of
eight profile skills, with no boost keyword present. -/
def jobPython : Job :=
  { title := "python wizard", company := "acme", location := "lahore",
    description := "", applyLink := "x", email := none, id := "acme-python wizard" }

/-- Eight profile skills of which `jobPython` matches exactly "python". -/
def skillsEight : List String :=
  ["python", "qqa", "qqb", "qqc", "qqd", "qqe", "qqf", "qqg"]

/-- On the fixture, the keyword score is exactly 1/8. -/
theorem kwScore_jobPython : computeKeywordScore jobPython skillsEight = 1/8 := by
  have hmap : skillsEight.map
      (fun skill =>
        skillCredit (toLowerS (jobPython.title ++ " " ++ jobPython.description)) skill) =
      [1, 0, 0, 0, 0, 0, 0, 0] := by decide
  simp only [computeKeywordScore]
  rw [hmap]
  norm_num [skillsEight, List.sum_cons, List.sum_nil]

/-- C4 counterexample: on `jobPython` with eight skills and zero raw
similarity the exact value of `(base + boosts) * 100` is 3.75; the code's
`int()` truncation yields 3 while the claimed `round` yields 4, so the
final score is not `round((0.70*semantic + 0.30*keyword + boosts) * 100)`. -/
theorem c4_counterexample :
    scoreJobHybrid jobPython skillsEight 0 = 3 ∧
    scoreJobHybridSpec jobPython skillsEight 0 = 4 := by
  have hfb : freshGradBoost jobPython = 0 := by decide
  have hrb : roleBoost jobPython = 0 := by decide
  have harg : ((max 0 0 : ℚ) * (70/100) + 1/8 * (30/100) + 0 + 0) * 100 = 15/4 := by
    rw [max_self]
    norm_num
  constructor
  · simp only [scoreJobHybrid]
    rw [kwScore_jobPython, hfb, hrb, harg]
    have hp : pyInt (15/4 : ℚ) = 3 := by
      unfold pyInt
      rw [if_pos (by norm_num)]
      norm_num [Int.floor_eq_iff]
    rw [hp]
    decide
  · simp only [scoreJobHybridSpec]
    rw [kwScore_jobPython, hfb, hrb, harg]
    have hp : round (15/4 : ℚ) = 4 := by
      rw [round_eq]
      norm_num [Int.floor_eq_iff]
    rw [hp]
    decide

/-- C4 amended: the final score equals the code's combination with
truncation toward zero — `min(100, int((0.70*semantic + 0.30*keyword +
freshGradBoost + roleBoost) * 100))` where `semantic` is the
non-negatively clamped cosine — and `pyInt` on the non-negative argument
is the floor (so the true value is underestimated by less than 1, never
rounded up as the claim's `round` would). -/
theorem c4_score_combination (job : Job) (cvSkills : List String) (cosineRaw : ℚ) :
    scoreJobHybrid job cvSkills cosineRaw =
      min 100 (pyInt ((max 0 cosineRaw * (70/100) +
        computeKeywordScore job cvSkills * (30/100) +
        freshGradBoost job + roleBoost job) * 100)) ∧
    (∀ q : ℚ, 0 ≤ q → (pyInt q : ℚ) ≤ q ∧ q < pyInt q + 1) := by
  refine ⟨rfl, ?_⟩
  intro q hq
  unfold pyInt
  rw [if_pos hq]
  exact ⟨Int.floor_le q, Int.lt_floor_add_one q⟩

/-- C4 witness: the amended combination on the fixture, plus the
truncation bracket at the concrete value 15/4. -/
theorem c4_witness :
    scoreJobHybrid jobPython skillsEight 0 =
      min 100 (pyInt ((max 0 0 * (70/100) +
        computeKeywordScore jobPython skillsEight * (30/100) +
        freshGradBoost jobPython + roleBoost jobPython) * 100)) ∧
    (pyInt (15/4 : ℚ) : ℚ) ≤ 15/4 ∧ (15/4 : ℚ) < pyInt (15/4 : ℚ) + 1 :=
  ⟨(c4_score_combination jobPython skillsEight 0).1,
   (c4_score_combination jobPython skillsEight 0).2 (15/4) (by norm_num)⟩

/-- C10: dispatch records history before — and regardless of — the
delivery outcome. On a not-yet-sent fingerprint, `sendToDiscord` marks it
(persisting synchronously inside `mark_as_sent`) strictly before the
transport attempt (the event list puts `marked` first), the resulting
store contains the fingerprint whatever the transport outcome, and a
repeat dispatch for the same fingerprint is a no-op, so the job is never
retried; on an already-sent fingerprint, the store and the outside world
are left untouched. -/
theorem c10_dispatch_marks_before_send :
    (∀ (h : Hist) (id : String) (now : Int) (transportFails : Bool),
      is_sent h id = false →
        is_sent (sendToDiscordM h id now transportFails).1 id = true ∧
        (sendToDiscordM h id now transportFails).2 =
          [Ev.marked id, Ev.postAttempt id (!transportFails)] ∧
        sendToDiscordM (sendToDiscordM h id now transportFails).1 id now transportFails =
          ((sendToDiscordM h id now transportFails).1, []))
    ∧ (∀ (h : Hist) (id : String) (now : Int) (transportFails : Bool),
      is_sent h id = true → sendToDiscordM h id now transportFails = (h, [])) := by
  constructor
  · intro h id now tf hns
    have hmark : is_sent (mark_as_sent h id now) id = true :=
      is_sent_of_mem (mem_mark_as_sent h id now)
    have hfst : (sendToDiscordM h id now tf).1 = mark_as_sent h id now := by
      simp [sendToDiscordM, hns]
    refine ⟨by rw [hfst]; exact hmark, by simp [sendToDiscordM, hns], ?_⟩
    rw [hfst]
    simp [sendToDiscordM, hmark]
  · intro h id now tf hs
    simp [sendToDiscordM, hs]

/-- C10 witness: on the empty store, dispatching fingerprint "f" marks it
before the (failing) transport attempt, and a repeat dispatch is a no-op. -/
theorem c10_witness :
    is_sent (sendToDiscordM [] "f" 5 true).1 "f" = true ∧
    (sendToDiscordM [] "f" 5 true).2 = [Ev.marked "f", Ev.postAttempt "f" false] ∧
    sendToDiscordM (sendToDiscordM [] "f" 5 true).1 "f" 5 true =
      ((sendToDiscordM [] "f" 5 true).1, []) := by
  have h := c10_dispatch_marks_before_send.1 [] "f" 5 true (by decide)
  exact ⟨h.1, h.2.1, h.2.2⟩

/-- C1: idempotent delivery. A fingerprint marked as sent survives the
retention cleanup while its timestamp is still within the window (strictly
newer than `now - retentionDays`), so `is_sent` keeps returning true; and
the orchestrator's per-job step skips any job whose fingerprint is already
in the history store — the store is unchanged and no event (neither a
scorer call nor a dispatch) is produced. -/
theorem c1_idempotent_delivery :
    (∀ (cfg : RunConfig) (cvSkills : List String) (semantic : Job → ℚ)
       (now : Int) (transportFails : Bool) (h : Hist) (job : Job),
      is_sent h job.id = true →
        processJob cfg cvSkills semantic now transportFails h job = (h, []))
    ∧ (∀ (h : Hist) (id : String) (tMark now retention : Int),
      now - retention < tMark →
        is_sent (cleanup_old_entries (mark_as_sent h id tMark) now retention).1 id = true) := by
  constructor
  · intro cfg cvSkills semantic now tf h job hs
    simp [processJob, hs]
  · intro h id tMark now retention hwin
    have hmem : (id, tMark) ∈ mark_as_sent h id tMark := mem_mark_as_sent h id tMark
    have hkept : (id, tMark) ∈
        (cleanup_old_entries (mark_as_sent h id tMark) now retention).1 := by
      simp only [cleanup_old_entries, List.mem_filter, decide_eq_true_eq]
      exact ⟨hmem, hwin⟩
    exact is_sent_of_mem hkept

/-- C1 witness: a job whose fingerprint is already stored is skipped with
no events, and a fingerprint marked at time 10 is still reported sent
after a cleanup at time 12 with a 7-day retention. -/
theorem c1_witness :
    processJob ⟨[], [], 40⟩ [] (fun _ => 0) 0 false [("acme-dev", 0)]
      { title := "dev", company := "acme", location := "x", description := "d",
        applyLink := "L", email := none, id := "acme-dev" } = ([("acme-dev", 0)], []) ∧
    is_sent (cleanup_old_entries (mark_as_sent [] "f" 10) 12 7).1 "f" = true :=
  ⟨c1_idempotent_delivery.1 ⟨[], [], 40⟩ [] (fun _ => 0) 0 false [("acme-dev", 0)]
      { title := "dev", company := "acme", location := "x", description := "d",
        applyLink := "L", email := none, id := "acme-dev" } (by decide),
   c1_idempotent_delivery.2 [] "f" 10 12 7 (by decide)⟩

end Joblyst
